import Mathlib

/-!
Shallow embedding of the BCD backend analysis and comparison engine.

Sources embedded (translated from the Python source, floats modelled as
exact reals, the table store as lists of rows):
  * `src/backend/app/processing/quality.py` — session quality, consistency,
    analysis confidence, variation level.
  * `src/backend/app/processing/embedding.py` — `extract_embedding`
    (with optional user-mean centring); the network itself is an injected
    capability `String → List ℝ` from storage path to raw embedding.
  * `src/backend/app/services/analysis_service.py` — cosine distance,
    baseline and trend loading, per-angle aggregation, storing, the
    `analyze_session` pipeline.
  * `src/backend/app/api/analyze_session.py` — `_persist_analysis`
    (success path; the try/except retries there only degrade the row shape
    when optional columns are missing in an old schema).
  * `src/backend/app/services/comparison_service.py` — `_trend_label`,
    baseline loaders and `compare_sessions`.

Wall-clock inputs (the 30-day cutoff of the monthly baseline) are modelled
as an injected row predicate; `order by created_at desc` over a table is
modelled as reversal of insertion order.
-/

/-- Pointwise sum of two equal-length vectors (numpy broadcasting `+`). -/
noncomputable def addVec (a b : List ℝ) : List ℝ := List.zipWith (· + ·) a b

/-- Pointwise difference (numpy `embedding - user_mean`). -/
noncomputable def subVec (a b : List ℝ) : List ℝ := List.zipWith (· - ·) a b

/-- Scalar multiple of a vector. -/
noncomputable def scaleVec (c : ℝ) (v : List ℝ) : List ℝ := v.map (fun x => c * x)

/-- Sum of a list of vectors; empty list gives the empty vector. -/
noncomputable def sumVecs : List (List ℝ) → List ℝ
  | [] => []
  | v :: vs => vs.foldl addVec v

/-- `np.mean(vs, axis=0)`: pointwise arithmetic mean of a list of vectors. -/
noncomputable def meanVec (vs : List (List ℝ)) : List ℝ :=
  scaleVec (1 / (vs.length : ℝ)) (sumVecs vs)

/-- `np.mean` of a list of scalars. -/
noncomputable def meanR (l : List ℝ) : ℝ := l.sum / (l.length : ℝ)

/-- Dot product of two vectors, `np.dot`. -/
noncomputable def dotList (a b : List ℝ) : ℝ := (List.zipWith (· * ·) a b).sum

/-- Euclidean norm, `np.linalg.norm`. -/
noncomputable def vecNorm (a : List ℝ) : ℝ := Real.sqrt (dotList a a)

/-- Population standard deviation, `np.std` (ddof = 0). -/
noncomputable def listStd (l : List ℝ) : ℝ :=
  Real.sqrt (meanR (l.map (fun x => (x - meanR l) ^ 2)))

/-- `_cosine_distance` as defined identically in
`analysis_service.py` (lines 40–46) and `comparison_service.py`
(lines 32–37): `1 − a·b/(‖a‖‖b‖)`, and `1.0` when either norm is zero. -/
noncomputable def cosineDistance (a b : List ℝ) : ℝ :=
  if vecNorm a = 0 ∨ vecNorm b = 0 then 1
  else 1 - dotList a b / (vecNorm a * vecNorm b)

/-- Round-half-to-even on a real, the rounding mode of Python `round`. -/
noncomputable def roundHalfEven (x : ℝ) : ℤ :=
  if x - ⌊x⌋ < 1 / 2 then ⌊x⌋
  else if x - ⌊x⌋ > 1 / 2 then ⌊x⌋ + 1
  else if ⌊x⌋ % 2 = 0 then ⌊x⌋ else ⌊x⌋ + 1

/-- Python `round(x, 4)`. -/
noncomputable def pyRound4 (x : ℝ) : ℝ := (roundHalfEven (x * 10000) : ℝ) / 10000

/-- `quality.py` — `compute_session_quality` on the dict's list of values:
mean quality times coverage `min(1, n/6)`, rounded to 4 decimals;
`0.0` on the empty dict. -/
noncomputable def compute_session_quality (scores : List ℝ) : ℝ :=
  if scores.isEmpty then 0
  else pyRound4 (meanR scores * min 1 ((scores.length : ℝ) / 6))

/-- `quality.py` — `compute_consistency_score`: `1.0` below two scores,
else `max(0, 1 − std/0.5)` rounded to 4 decimals. -/
noncomputable def compute_consistency_score (l : List ℝ) : ℝ :=
  if l.length < 2 then 1
  else pyRound4 (max 0 (1 - listStd l / 0.5))

/-- `quality.py` — `compute_analysis_confidence`: weighted sum of quality,
consistency, coverage and history factor, clamped to `[0,1]` and rounded. -/
noncomputable def compute_analysis_confidence (session_quality_score : ℝ)
    (consistency_score : ℝ) (n_angles : ℕ) (is_first_session : Bool) : ℝ :=
  pyRound4 (max 0 (min 1
    (0.40 * session_quality_score + 0.30 * consistency_score
      + 0.20 * min 1 ((n_angles : ℝ) / 6)
      + 0.10 * (if is_first_session then 0.7 else 1.0))))

/-- `quality.py` — `variation_level`: raw score to neutral label. -/
noncomputable def variation_level (score : ℝ) : String :=
  if score < 0.10 then "Stable"
  else if score < 0.25 then "Mild Variation"
  else if score < 0.45 then "Moderate Variation"
  else if score < 0.70 then "Higher Variation"
  else "Strong Variation"

/-- `comparison_service.py` — `_trend_label` with
`STABLE_THRESHOLD = 0.1` and `MILD_THRESHOLD = 0.25`. -/
noncomputable def trend_label (distance : ℝ) : String :=
  if distance < 0.1 then "stable"
  else if distance < 0.25 then "mild_variation"
  else "significant_shift"

/-- Rank of a variation label in the classifier's order, for stating
monotonicity; unknown strings rank above all five labels. -/
def labelRank (s : String) : ℕ :=
  if s = "Stable" then 0
  else if s = "Mild Variation" then 1
  else if s = "Moderate Variation" then 2
  else if s = "Higher Variation" then 3
  else if s = "Strong Variation" then 4
  else 5

/-- Does `needle` occur as a contiguous run inside `hay`? -/
def subAt (needle : List Char) : List Char → Bool
  | [] => needle.isEmpty
  | c :: t => needle.isPrefixOf (c :: t) || subAt needle t

/-- Case-insensitive substring test on strings. -/
def containsCI (hay needle : String) : Bool :=
  subAt (needle.data.map Char.toLower) (hay.data.map Char.toLower)

/-- `embedding.py` — `extract_embedding`: raw encoder output for the image,
centred by the user-mean embedding when one is supplied. The encoder is the
injected capability `extractOf : storage path → raw embedding`. -/
noncomputable def extract_embedding (extractOf : String → List ℝ) (path : String)
    (user_mean : Option (List ℝ)) : List ℝ :=
  match user_mean with
  | some m => subVec (extractOf path) m
  | none => extractOf path

/-- `quality.py` — the `ImageQuality` record attached to each image by
`preprocess_pipeline`; its numeric content is injected per image. -/
structure ImageQuality where
  blur_score : ℝ
  brightness : ℝ
  is_blurry : Bool
  is_too_dark : Bool
  is_too_bright : Bool
  quality_score : ℝ

/-- One image record handed to `analyze_session`: its angle label
(`image_type`) and storage path. -/
structure ImageRec where
  image_type : String
  storage_path : String

/-- Row of the `session_embeddings` table. -/
structure SessionEmbRow where
  session_id : String
  user_id : String
  embedding : List ℝ

/-- Row of the `angle_embeddings` table. -/
structure AngleEmbRow where
  session_id : String
  user_id : String
  angle_type : String
  embedding : List ℝ

/-- Row of the `angle_analysis` table (full Phase-5 shape). -/
structure AngleAnalysisRow where
  session_id : String
  user_id : String
  angle_type : String
  change_score : ℝ
  summary : String
  angle_quality_score : Option ℝ

/-- Row of the `session_analysis` table (full Phase-5 shape). -/
structure SessionAnalysisRow where
  session_id : String
  user_id : String
  overall_change_score : ℝ
  trend_score : Option ℝ
  analysis_confidence_score : Option ℝ
  session_quality_score : Option ℝ

/-- The table store: the four collections the engine reads and writes,
each a list of rows in insertion order (`created_at` ascending). -/
structure Store where
  session_embeddings : List SessionEmbRow
  angle_embeddings : List AngleEmbRow
  session_analysis : List SessionAnalysisRow
  angle_analysis : List AngleAnalysisRow

/-- `analysis_service.py` — `_load_user_baseline`: mean of all stored
session embeddings of the user excluding the current session; `None`
when there are none (first session). -/
noncomputable def load_user_baseline (user_id exclude_session_id : String)
    (db : Store) : Option (List ℝ) :=
  let rows := db.session_embeddings.filter
    (fun r => r.user_id == user_id && r.session_id != exclude_session_id)
  if rows.isEmpty then none
  else some (meanVec (rows.map (fun r => r.embedding)))

/-- `analysis_service.py` — `_load_trend_score`: mean of the last `n`
prior sessions' overall change scores (most recent first), `None` with
no history. -/
noncomputable def load_trend_score (user_id exclude_session_id : String)
    (n : ℕ) (db : Store) : Option ℝ :=
  let rows := ((db.session_analysis.filter
    (fun r => r.user_id == user_id && r.session_id != exclude_session_id)).reverse).take n
  let scores := rows.map (fun r => r.overall_change_score)
  if scores.isEmpty then none
  else some (meanR scores)

/-- `analysis_service.py` — `_store_angle_embeddings`: delete the session's
rows then insert the new per-angle rows (success path of the guard that
skips a missing table). -/
def store_angle_embeddings (session_id user_id : String)
    (angle_embeddings : List (String × List ℝ)) (db : Store) : Store :=
  { db with angle_embeddings :=
      db.angle_embeddings.filter (fun r => r.session_id != session_id)
        ++ angle_embeddings.map (fun p =>
            { session_id := session_id, user_id := user_id,
              angle_type := p.1, embedding := p.2 }) }

/-- `analysis_service.py` — `_store_session_embedding`: delete then insert
the single session-level row. -/
def store_session_embedding (session_id user_id : String)
    (embedding : List ℝ) (db : Store) : Store :=
  { db with session_embeddings :=
      db.session_embeddings.filter (fun r => r.session_id != session_id)
        ++ [{ session_id := session_id, user_id := user_id,
              embedding := embedding }] }

/-- Ordered distinct angle keys of the `defaultdict` grouping of images by
`image_type`, in first-appearance order. -/
def angleKeys (images : List ImageRec) : List String :=
  images.foldl (fun acc i =>
    if acc.contains i.image_type then acc else acc ++ [i.image_type]) []

/-- The images of one angle group, in input order. -/
def imagesOf (images : List ImageRec) (a : String) : List ImageRec :=
  images.filter (fun i => i.image_type == a)

/-- Intermediate per-angle computation of `analyze_session` step 3. -/
structure AngleComp where
  angle_type : String
  embedding : List ℝ
  angle_q4 : ℝ
  change_score : ℝ
  image_quality : List ImageQuality

/-- Per-angle extraction, aggregation, quality and change scoring of
`analyze_session` (step 3), one record per angle group. -/
noncomputable def angleComputations (extractOf : String → List ℝ)
    (qualOf : String → ImageQuality) (images : List ImageRec)
    (user_baseline : Option (List ℝ)) : List AngleComp :=
  (angleKeys images).map (fun a =>
    let imgs := imagesOf images a
    let embs := imgs.map (fun i => extract_embedding extractOf i.storage_path user_baseline)
    let angle_embedding := meanVec embs
    let angle_q := meanR (imgs.map (fun i => (qualOf i.storage_path).quality_score))
    let change := match user_baseline with
      | some m => min 1 (cosineDistance angle_embedding m)
      | none => 0
    { angle_type := a, embedding := angle_embedding,
      angle_q4 := pyRound4 angle_q, change_score := change,
      image_quality := imgs.map (fun i => qualOf i.storage_path) })

/-- One element of the `per_angle` list of the analysis result. -/
structure AngleResult where
  angle_type : String
  change_score : ℝ
  variation_level : String
  angle_quality_score : ℝ
  image_quality : List ImageQuality
  summary : String

/-- The dictionary `analyze_session` returns (processing time omitted:
wall clock). -/
structure AnalysisResult where
  per_angle : List AngleResult
  overall_summary : String
  overall_change_score : ℝ
  variation_level : String
  trend_score : Option ℝ
  is_first_session : Bool
  analysis_confidence_score : ℝ
  session_quality_score : ℝ
  consistency_score : ℝ
  baseline_used : String
  comparison_layers_used : List String

/-- `analysis_service.py` — `analyze_session`: the full pipeline, returning
the analysis dict and the store after the two embedding writes. -/
noncomputable def analyze_session (extractOf : String → List ℝ)
    (qualOf : String → ImageQuality) (images : List ImageRec)
    (user_id session_id : String) (db : Store) : AnalysisResult × Store :=
  let user_baseline := load_user_baseline user_id session_id db
  let is_first_session := user_baseline.isNone
  let comp := angleComputations extractOf qualOf images user_baseline
  let session_embedding := meanVec (comp.map (fun r => r.embedding))
  let db1 := store_angle_embeddings session_id user_id
    (comp.map (fun r => (r.angle_type, r.embedding))) db
  let db2 := store_session_embedding session_id user_id session_embedding db1
  let overall_change_score := match user_baseline with
    | some m => min 1 (cosineDistance session_embedding m)
    | none => 0
  let trend_score := load_trend_score user_id session_id 5 db2
  let session_quality_score := compute_session_quality (comp.map (fun r => r.angle_q4))
  let consistency_score := compute_consistency_score (comp.map (fun r => r.change_score))
  let analysis_confidence_score := compute_analysis_confidence
    session_quality_score consistency_score (angleKeys images).length is_first_session
  ({ per_angle := comp.map (fun r =>
        { angle_type := r.angle_type, change_score := r.change_score,
          variation_level := variation_level r.change_score,
          angle_quality_score := r.angle_q4,
          image_quality := r.image_quality,
          summary := "Distance-based analysis for " ++ r.angle_type ++ " angle." }),
      overall_summary :=
        if is_first_session then
          "Baseline established. Future sessions will be compared to this."
        else
          "ML analysis complete. Scores reflect distance from your personal baseline.",
      overall_change_score := overall_change_score,
      variation_level := variation_level overall_change_score,
      trend_score := trend_score,
      is_first_session := is_first_session,
      analysis_confidence_score := analysis_confidence_score,
      session_quality_score := session_quality_score,
      consistency_score := consistency_score,
      baseline_used := if is_first_session then "none" else "lifetime_mean",
      comparison_layers_used := if is_first_session then [] else ["lifetime_baseline"] },
    db2)

/-- `api/analyze_session.py` — `_persist_analysis`: delete both analysis
tables' rows for the session, insert the per-angle rows and the session row
(full-schema success path of the column-fallback retries). -/
def persist_analysis (session_id user_id : String) (analysis : AnalysisResult)
    (db : Store) : Store :=
  let db1 := { db with
    angle_analysis := db.angle_analysis.filter (fun r => r.session_id != session_id),
    session_analysis := db.session_analysis.filter (fun r => r.session_id != session_id) }
  let per_angle_rows : List AngleAnalysisRow := analysis.per_angle.map (fun item =>
    { session_id := session_id, user_id := user_id,
      angle_type := item.angle_type, change_score := item.change_score,
      summary := item.summary,
      angle_quality_score := some item.angle_quality_score })
  let session_row : SessionAnalysisRow :=
    { session_id := session_id, user_id := user_id,
      overall_change_score := analysis.overall_change_score,
      trend_score := analysis.trend_score,
      analysis_confidence_score := some analysis.analysis_confidence_score,
      session_quality_score := some analysis.session_quality_score }
  { db1 with
    angle_analysis := db1.angle_analysis ++ per_angle_rows,
    session_analysis := db1.session_analysis ++ [session_row] }

/-- One full analysis run as triggered by the API route: analyze, then
persist; returns the resulting store. -/
noncomputable def run_analysis (extractOf : String → List ℝ)
    (qualOf : String → ImageQuality) (images : List ImageRec)
    (user_id session_id : String) (db : Store) : Store :=
  let r := analyze_session extractOf qualOf images user_id session_id db
  persist_analysis session_id user_id r.1 r.2

/-- Python-dict construction: update key in place or append a fresh pair. -/
def dictUpd {α : Type} (d : List (String × α)) (k : String) (v : α) :
    List (String × α) :=
  if d.any (fun p => p.1 == k) then
    d.map (fun p => if p.1 == k then (k, v) else p)
  else d ++ [(k, v)]

/-- Build a Python dict from a row stream: first-insertion key order,
last value wins. -/
def toDict {α : Type} (l : List (String × α)) : List (String × α) :=
  l.foldl (fun d p => dictUpd d p.1 p.2) []

/-- Python `dict.get`. -/
def dictGet {α : Type} (d : List (String × α)) (k : String) : Option α :=
  (d.find? (fun p => p.1 == k)).map (fun p => p.2)

/-- `comparison_service.py` — `_load_angle_scores`: the
`angle_type → change_score` dict of one session's `angle_analysis` rows. -/
def load_angle_scores (session_id : String) (db : Store) : List (String × ℝ) :=
  toDict ((db.angle_analysis.filter (fun r => r.session_id == session_id)).map
    (fun r => (r.angle_type, r.change_score)))

/-- `comparison_service.py` — `_load_angle_embeddings`. -/
def load_angle_embs (session_id : String) (db : Store) : List (String × List ℝ) :=
  toDict ((db.angle_embeddings.filter (fun r => r.session_id == session_id)).map
    (fun r => (r.angle_type, r.embedding)))

/-- `comparison_service.py` — `_load_session_embedding` (`limit(1)`). -/
def load_session_embedding (session_id : String) (db : Store) : Option (List ℝ) :=
  ((db.session_embeddings.filter (fun r => r.session_id == session_id)).head?).map
    (fun r => r.embedding)

/-- `comparison_service.py` — `_mean_of_embeddings`. -/
noncomputable def mean_of_embeddings (embeddings : List (List ℝ)) : Option (List ℝ) :=
  if embeddings.isEmpty then none else some (meanVec embeddings)

/-- `comparison_service.py` — `_load_rolling_baseline`: mean embedding of
the last `n` other sessions of the user (insertion order as creation order). -/
noncomputable def load_rolling_baseline (user_id current_session_id : String)
    (n : ℕ) (db : Store) : Option (List ℝ) :=
  mean_of_embeddings
    ((((db.session_embeddings.filter
        (fun r => r.user_id == user_id && r.session_id != current_session_id)).reverse).take n).map
      (fun r => r.embedding))

/-- `comparison_service.py` — `_load_monthly_baseline`: the trailing 30-day
window is the injected predicate `inWindow` (`created_at >= cutoff`). -/
noncomputable def load_monthly_baseline (user_id current_session_id : String)
    (inWindow : SessionEmbRow → Bool) (db : Store) : Option (List ℝ) :=
  mean_of_embeddings
    ((db.session_embeddings.filter
        (fun r => r.user_id == user_id && r.session_id != current_session_id && inWindow r)).map
      (fun r => r.embedding))

/-- `comparison_service.py` — `_load_lifetime_baseline`. -/
noncomputable def load_lifetime_baseline (user_id current_session_id : String)
    (db : Store) : Option (List ℝ) :=
  mean_of_embeddings
    ((db.session_embeddings.filter
        (fun r => r.user_id == user_id && r.session_id != current_session_id)).map
      (fun r => r.embedding))

/-- One extended comparison layer of the result (delta, trend, available). -/
structure BaselineLayer where
  delta : Option ℝ
  trend : Option String
  available : Bool

/-- One per-angle entry of the comparison result. -/
structure ComparisonAngle where
  angle_type : String
  current_score : ℝ
  previous_score : ℝ
  delta : ℝ
  delta_magnitude : ℝ
  embedding_distance : Option ℝ

/-- The dict returned by `compare_sessions`. -/
structure ComparisonResult where
  per_angle : List ComparisonAngle
  overall_delta : ℝ
  stability_index : ℝ
  overall_trend : String
  comparison_method : String
  rolling_baseline : BaselineLayer
  monthly_baseline : BaselineLayer
  lifetime_baseline : BaselineLayer

/-- `comparison_service.py` — `compare_sessions`: `none` models the
`ValueError` raised when either session has no analysis rows. -/
noncomputable def compare_sessions (current_session_id previous_session_id
    user_id : String) (inWindow : SessionEmbRow → Bool) (db : Store) :
    Option ComparisonResult :=
  let current_scores := load_angle_scores current_session_id db
  let previous_scores := load_angle_scores previous_session_id db
  if current_scores.isEmpty || previous_scores.isEmpty then none
  else
    let current_emb := load_session_embedding current_session_id db
    let previous_emb := load_session_embedding previous_session_id db
    let current_angle_embs := load_angle_embs current_session_id db
    let previous_angle_embs := load_angle_embs previous_session_id db
    let has_embs := current_emb.isSome && previous_emb.isSome
    let immediate_delta := match current_emb, previous_emb with
      | some c, some p => cosineDistance c p
      | _, _ => 0
    let comparison_method := if has_embs then "embedding" else "score"
    let rolling_delta := match current_emb,
        load_rolling_baseline user_id current_session_id 5 db with
      | some c, some r => some (cosineDistance c r)
      | _, _ => none
    let monthly_delta := match current_emb,
        load_monthly_baseline user_id current_session_id inWindow db with
      | some c, some m => some (cosineDistance c m)
      | _, _ => none
    let lifetime_delta := match current_emb,
        load_lifetime_baseline user_id current_session_id db with
      | some c, some l => some (cosineDistance c l)
      | _, _ => none
    let per_angle : List ComparisonAngle := current_scores.filterMap (fun p =>
      match dictGet previous_scores p.1 with
      | none => none
      | some previous_score => some
        { angle_type := p.1, current_score := p.2,
          previous_score := previous_score,
          delta := p.2 - previous_score,
          delta_magnitude := |p.2 - previous_score|,
          embedding_distance := match dictGet current_angle_embs p.1,
              dictGet previous_angle_embs p.1 with
            | some c, some q => some (cosineDistance c q)
            | _, _ => none })
    let score_deltas := per_angle.map (fun r => r.delta_magnitude)
    let avg_score_delta :=
      if score_deltas.isEmpty then 0 else score_deltas.sum / (score_deltas.length : ℝ)
    let overall_delta := if has_embs then immediate_delta else avg_score_delta
    some
      { per_angle := per_angle,
        overall_delta := overall_delta,
        stability_index := max 0 (min 1 (1 - overall_delta)),
        overall_trend := trend_label overall_delta,
        comparison_method := comparison_method,
        rolling_baseline :=
          { delta := rolling_delta, trend := rolling_delta.map trend_label,
            available := rolling_delta.isSome },
        monthly_baseline :=
          { delta := monthly_delta, trend := monthly_delta.map trend_label,
            available := monthly_delta.isSome },
        lifetime_baseline :=
          { delta := lifetime_delta, trend := lifetime_delta.map trend_label,
            available := lifetime_delta.isSome } }

/-- A tiny concrete store: user u1 with analyzed sessions s1 and s2 whose
session embeddings are the opposite one-dimensional vectors [1] and [-1],
one analyzed angle each. -/
noncomputable def exStore : Store :=
  { session_embeddings :=
      [ { session_id := "s1", user_id := "u1", embedding := [1] },
        { session_id := "s2", user_id := "u1", embedding := [-1] } ],
    angle_embeddings := [],
    session_analysis := [],
    angle_analysis :=
      [ { session_id := "s1", user_id := "u1", angle_type := "front",
          change_score := 0, summary := "", angle_quality_score := none },
        { session_id := "s2", user_id := "u1", angle_type := "front",
          change_score := 0, summary := "", angle_quality_score := none } ] }

theorem dotList_nil_left (b : List ℝ) : dotList [] b = 0 := by
  simp [dotList]

theorem dotList_nil_right (a : List ℝ) : dotList a [] = 0 := by
  cases a <;> simp [dotList]

theorem dotList_cons (x y : ℝ) (xs ys : List ℝ) :
    dotList (x :: xs) (y :: ys) = x * y + dotList xs ys := by
  simp [dotList]

theorem dotList_self_nonneg (a : List ℝ) : 0 ≤ dotList a a := by
  induction a with
  | nil => simp [dotList]
  | cons x xs ih => rw [dotList_cons]; nlinarith [mul_self_nonneg x]

theorem dotList_comm (a b : List ℝ) : dotList a b = dotList b a := by
  induction a generalizing b with
  | nil => simp [dotList_nil_left, dotList_nil_right]
  | cons x xs ih =>
    cases b with
    | nil => simp [dotList_nil_left, dotList_nil_right]
    | cons y ys => rw [dotList_cons, dotList_cons, ih, mul_comm]

theorem vecNorm_nonneg (a : List ℝ) : 0 ≤ vecNorm a := Real.sqrt_nonneg _

theorem vecNorm_mul_self (a : List ℝ) : vecNorm a * vecNorm a = dotList a a :=
  Real.mul_self_sqrt (dotList_self_nonneg a)

theorem vecNorm_eq_zero_iff (a : List ℝ) : vecNorm a = 0 ↔ dotList a a = 0 := by
  unfold vecNorm
  rw [Real.sqrt_eq_zero']
  exact ⟨fun h => le_antisymm h (dotList_self_nonneg a), fun h => le_of_eq h⟩

theorem sqrt_step_ineq (x y S T : ℝ) (hS : 0 ≤ S) (hT : 0 ≤ T) :
    |x| * |y| + Real.sqrt S * Real.sqrt T ≤
      Real.sqrt (x * x + S) * Real.sqrt (y * y + T) := by
  have hxS : (0:ℝ) ≤ x * x + S := by nlinarith [mul_self_nonneg x]
  have hyT : (0:ℝ) ≤ y * y + T := by nlinarith [mul_self_nonneg y]
  rw [← Real.sqrt_mul hxS]
  rw [Real.le_sqrt (by positivity) (by positivity)]
  nlinarith [sq_nonneg (|x| * Real.sqrt T - |y| * Real.sqrt S),
    Real.sq_sqrt hS, Real.sq_sqrt hT, sq_abs x, sq_abs y,
    abs_nonneg x, abs_nonneg y, Real.sqrt_nonneg S, Real.sqrt_nonneg T,
    mul_nonneg (abs_nonneg x) (abs_nonneg y),
    mul_nonneg (Real.sqrt_nonneg S) (Real.sqrt_nonneg T)]

theorem abs_dotList_le (a b : List ℝ) : |dotList a b| ≤ vecNorm a * vecNorm b := by
  induction a generalizing b with
  | nil =>
    rw [dotList_nil_left]
    simpa using mul_nonneg (vecNorm_nonneg []) (vecNorm_nonneg b)
  | cons x xs ih =>
    cases b with
    | nil =>
      rw [dotList_nil_right]
      simpa using mul_nonneg (vecNorm_nonneg (x :: xs)) (vecNorm_nonneg [])
    | cons y ys =>
      have hS := dotList_self_nonneg xs
      have hT := dotList_self_nonneg ys
      calc |dotList (x :: xs) (y :: ys)|
          = |x * y + dotList xs ys| := by rw [dotList_cons]
        _ ≤ |x * y| + |dotList xs ys| := abs_add _ _
        _ = |x| * |y| + |dotList xs ys| := by rw [abs_mul]
        _ ≤ |x| * |y| + Real.sqrt (dotList xs xs) * Real.sqrt (dotList ys ys) := by
            have := ih ys
            unfold vecNorm at this
            linarith
        _ ≤ Real.sqrt (x * x + dotList xs xs) * Real.sqrt (y * y + dotList ys ys) :=
            sqrt_step_ineq x y _ _ hS hT
        _ = vecNorm (x :: xs) * vecNorm (y :: ys) := by
            unfold vecNorm
            rw [dotList_cons, dotList_cons]

theorem cosineDistance_nonneg (a b : List ℝ) : 0 ≤ cosineDistance a b := by
  unfold cosineDistance
  split_ifs with h
  · norm_num
  · push_neg at h
    have hpa : 0 < vecNorm a := lt_of_le_of_ne (vecNorm_nonneg a) (Ne.symm h.1)
    have hpb : 0 < vecNorm b := lt_of_le_of_ne (vecNorm_nonneg b) (Ne.symm h.2)
    have hprod : 0 < vecNorm a * vecNorm b := mul_pos hpa hpb
    have hd : dotList a b ≤ vecNorm a * vecNorm b :=
      le_trans (le_abs_self _) (abs_dotList_le a b)
    have : dotList a b / (vecNorm a * vecNorm b) ≤ 1 := (div_le_one hprod).mpr hd
    linarith

theorem cosineDistance_le_two (a b : List ℝ) : cosineDistance a b ≤ 2 := by
  unfold cosineDistance
  split_ifs with h
  · norm_num
  · push_neg at h
    have hpa : 0 < vecNorm a := lt_of_le_of_ne (vecNorm_nonneg a) (Ne.symm h.1)
    have hpb : 0 < vecNorm b := lt_of_le_of_ne (vecNorm_nonneg b) (Ne.symm h.2)
    have hprod : 0 < vecNorm a * vecNorm b := mul_pos hpa hpb
    have hd : -(vecNorm a * vecNorm b) ≤ dotList a b := (abs_le.mp (abs_dotList_le a b)).1
    have : (-1 : ℝ) ≤ dotList a b / (vecNorm a * vecNorm b) := by
      rw [le_div_iff₀ hprod]; linarith
    linarith

theorem roundHalfEven_le (x : ℝ) : (roundHalfEven x : ℝ) ≤ x + 1 / 2 := by
  have hf1 := Int.floor_le x
  have hf2 := Int.lt_floor_add_one x
  unfold roundHalfEven
  split_ifs <;> push_cast <;> linarith

theorem roundHalfEven_ge (x : ℝ) : x - 1 / 2 ≤ (roundHalfEven x : ℝ) := by
  have hf1 := Int.floor_le x
  have hf2 := Int.lt_floor_add_one x
  unfold roundHalfEven
  split_ifs <;> push_cast <;> linarith

theorem pyRound4_lt (a b : ℝ) (h : a + 2 / 10000 ≤ b) : pyRound4 a < pyRound4 b := by
  unfold pyRound4
  have h1 : (roundHalfEven (a * 10000) : ℝ) < (roundHalfEven (b * 10000) : ℝ) := by
    have ha := roundHalfEven_le (a * 10000)
    have hb := roundHalfEven_ge (b * 10000)
    linarith
  exact (div_lt_div_iff_of_pos_right (by norm_num : (0:ℝ) < 10000)).mpr h1

/-- C5: for every pair of embeddings, if either has zero norm the cosine
distance is exactly 1.0 (total, never undefined), and otherwise it equals
`1 − (a·b)/(‖a‖‖b‖)`. -/
theorem C5_distance_zero_norm_total (a b : List ℝ) :
    ((vecNorm a = 0 ∨ vecNorm b = 0) → cosineDistance a b = 1) ∧
    (vecNorm a ≠ 0 → vecNorm b ≠ 0 →
      cosineDistance a b = 1 - dotList a b / (vecNorm a * vecNorm b)) := by
  constructor
  · intro h
    unfold cosineDistance
    rw [if_pos h]
  · intro ha hb
    unfold cosineDistance
    rw [if_neg (by tauto)]

/-- Witness for C5 at the zero vector `[0]` against `[1, 2]`, and at the
nonzero pair `[1]`, `[2]`. -/
theorem C5_distance_zero_norm_total_witness :
    cosineDistance [(0 : ℝ)] [1, 2] = 1 ∧
    cosineDistance [(1 : ℝ)] [2] =
      1 - dotList [(1 : ℝ)] [2] / (vecNorm [(1 : ℝ)] * vecNorm [2]) := by
  constructor
  · exact (C5_distance_zero_norm_total [(0 : ℝ)] [1, 2]).1
      (Or.inl (by rw [vecNorm_eq_zero_iff]; simp [dotList]))
  · exact (C5_distance_zero_norm_total [(1 : ℝ)] [2]).2
      (by rw [Ne, vecNorm_eq_zero_iff]; simp [dotList])
      (by rw [Ne, vecNorm_eq_zero_iff]; simp [dotList])

/-- C9: the cosine distance is symmetric, and the distance of any
nonzero-norm embedding to itself is 0. -/
theorem C9_distance_symm_self_zero (a b : List ℝ) :
    cosineDistance a b = cosineDistance b a ∧
    (vecNorm a ≠ 0 → cosineDistance a a = 0) := by
  constructor
  · unfold cosineDistance
    rw [dotList_comm a b, mul_comm (vecNorm a) (vecNorm b)]
    exact if_congr or_comm rfl rfl
  · intro h
    unfold cosineDistance
    rw [if_neg (by tauto), vecNorm_mul_self]
    have hd : dotList a a ≠ 0 := fun hz => h ((vecNorm_eq_zero_iff a).mpr hz)
    rw [div_self hd]
    norm_num

/-- Witness for C9 at `[1, 2]`, `[3, 4]` and at the nonzero vector `[1]`. -/
theorem C9_distance_symm_self_zero_witness :
    cosineDistance [(1 : ℝ), 2] [3, 4] = cosineDistance [(3 : ℝ), 4] [1, 2] ∧
    cosineDistance [(1 : ℝ)] [1] = 0 := by
  constructor
  · exact (C9_distance_symm_self_zero [(1 : ℝ), 2] [3, 4]).1
  · exact (C9_distance_symm_self_zero [(1 : ℝ)] [1]).2
      (by rw [Ne, vecNorm_eq_zero_iff]; simp [dotList])

/-- C10: `variation_level` is total on all real inputs: every input below
0.10 (including negatives) maps to "Stable" and every input at or above
0.70 (including values above 1) maps to "Strong Variation". -/
theorem C10_variation_level_total (x : ℝ) :
    (x < 0.10 → variation_level x = "Stable") ∧
    (0.70 ≤ x → variation_level x = "Strong Variation") := by
  constructor
  · intro h
    unfold variation_level
    rw [if_pos h]
  · intro h
    unfold variation_level
    rw [if_neg (by linarith), if_neg (by linarith), if_neg (by linarith),
      if_neg (by linarith)]

/-- Witness for C10 at the out-of-range inputs `-1` and `2`. -/
theorem C10_variation_level_total_witness :
    variation_level (-1 : ℝ) = "Stable" ∧ variation_level (2 : ℝ) = "Strong Variation" :=
  ⟨(C10_variation_level_total (-1)).1 (by norm_num),
   (C10_variation_level_total 2).2 (by norm_num)⟩

/-- C6: `variation_level` is non-decreasing in its input, partitions [0,1]
into the five labelled intervals with breakpoints 0.10, 0.25, 0.45, 0.70
(the last interval closed at 1), and no label contains "risk", "abnormal",
"suspicious" or "concerning" case-insensitively. -/
theorem C6_variation_level_partition :
    (∀ x y : ℝ, x ≤ y → labelRank (variation_level x) ≤ labelRank (variation_level y)) ∧
    (∀ x : ℝ, 0 ≤ x → x ≤ 1 →
      ((variation_level x = "Stable" ↔ x < 0.10) ∧
       (variation_level x = "Mild Variation" ↔ 0.10 ≤ x ∧ x < 0.25) ∧
       (variation_level x = "Moderate Variation" ↔ 0.25 ≤ x ∧ x < 0.45) ∧
       (variation_level x = "Higher Variation" ↔ 0.45 ≤ x ∧ x < 0.70) ∧
       (variation_level x = "Strong Variation" ↔ 0.70 ≤ x ∧ x ≤ 1))) ∧
    (∀ w ∈ ["risk", "abnormal", "suspicious", "concerning"],
      ∀ l ∈ ["Stable", "Mild Variation", "Moderate Variation", "Higher Variation",
        "Strong Variation"], containsCI l w = false) := by
  refine ⟨?_, ?_, ?_⟩
  · intro x y hxy
    unfold variation_level
    split_ifs <;> first | decide | (exfalso; linarith)
  · intro x h0 h1
    unfold variation_level
    split_ifs with ha hb hc hd <;>
      refine ⟨?_, ?_, ?_, ?_, ?_⟩ <;>
      simp only [String.reduceEq, true_iff, false_iff] <;>
      first
        | (constructor <;> linarith)
        | linarith
        | (intro hh; try obtain ⟨hh1, hh2⟩ := hh
           linarith)
  · decide

/-- Witness for C6: monotonicity at 0.05 ≤ 0.5, the interval membership of
0.5, and the cleanliness of one label against one banned word. -/
theorem C6_variation_level_partition_witness :
    labelRank (variation_level (0.05 : ℝ)) ≤ labelRank (variation_level (0.5 : ℝ)) ∧
    (variation_level (0.5 : ℝ) = "Higher Variation" ↔
      0.45 ≤ (0.5 : ℝ) ∧ (0.5 : ℝ) < 0.70) ∧
    containsCI "Strong Variation" "risk" = false :=
  ⟨C6_variation_level_partition.1 0.05 0.5 (by norm_num),
   (C6_variation_level_partition.2.1 0.5 (by norm_num) (by norm_num)).2.2.2.1,
   C6_variation_level_partition.2.2 "risk" (by simp)
     "Strong Variation" (by simp)⟩

/-- C8: with quality and consistency scores in their [0,1] ranges,
`compute_analysis_confidence` is strictly greater for a returning user
than for a first-time user with identical inputs, and strictly greater at
full angle coverage (6) than at any partial coverage, all else equal. -/
theorem C8_confidence_strict_mono (q c : ℝ) (hq0 : 0 ≤ q) (hq1 : q ≤ 1)
    (hc0 : 0 ≤ c) (hc1 : c ≤ 1) (n m : ℕ) (hm : m < 6) (first : Bool) :
    compute_analysis_confidence q c n true < compute_analysis_confidence q c n false ∧
    compute_analysis_confidence q c m first < compute_analysis_confidence q c 6 first := by
  have hcov0 : (0:ℝ) ≤ min 1 ((n : ℝ) / 6) := le_min (by norm_num) (by positivity)
  have hcov1 : min 1 ((n : ℝ) / 6) ≤ 1 := min_le_left _ _
  constructor
  · unfold compute_analysis_confidence
    simp only [if_true, if_false, Bool.false_eq_true, ite_true, ite_false]
    set cov := min 1 ((n : ℝ) / 6) with hcov
    have e1 : min 1 (0.40 * q + 0.30 * c + 0.20 * cov + 0.10 * 0.7)
        = 0.40 * q + 0.30 * c + 0.20 * cov + 0.10 * 0.7 :=
      min_eq_right (by linarith)
    have e2 : min 1 (0.40 * q + 0.30 * c + 0.20 * cov + 0.10 * 1.0)
        = 0.40 * q + 0.30 * c + 0.20 * cov + 0.10 * 1.0 :=
      min_eq_right (by linarith)
    rw [e1, e2, max_eq_right (by linarith), max_eq_right (by linarith)]
    apply pyRound4_lt
    linarith
  · unfold compute_analysis_confidence
    have hm5 : (m : ℝ) ≤ 5 := by exact_mod_cast Nat.le_of_lt_succ hm
    have hcovm : min 1 ((m : ℝ) / 6) = (m : ℝ) / 6 := min_eq_right (by linarith)
    have hm0 : (0:ℝ) ≤ (m : ℝ) / 6 := by positivity
    have hh0 : (0.7:ℝ) ≤ (if first then (0.7:ℝ) else 1.0) := by cases first <;> norm_num
    have hh1 : (if first then (0.7:ℝ) else 1.0) ≤ 1 := by cases first <;> norm_num
    set h := (if first then (0.7:ℝ) else 1.0) with hdef
    rw [hcovm]
    rw [show ((6:ℕ):ℝ) = 6 by norm_num]
    rw [show min 1 ((6:ℝ)/6) = 1 by norm_num]
    have e1 : min 1 (0.40 * q + 0.30 * c + 0.20 * ((m:ℝ)/6) + 0.10 * h)
        = 0.40 * q + 0.30 * c + 0.20 * ((m:ℝ)/6) + 0.10 * h :=
      min_eq_right (by linarith)
    have e2 : min 1 (0.40 * q + 0.30 * c + 0.20 * 1 + 0.10 * h)
        = 0.40 * q + 0.30 * c + 0.20 * 1 + 0.10 * h :=
      min_eq_right (by linarith)
    rw [e1, e2, max_eq_right (by linarith), max_eq_right (by linarith)]
    apply pyRound4_lt
    linarith

/-- Witness for C8 at quality 0.5, consistency 0.5, four angles against
three angles, returning user. -/
theorem C8_confidence_strict_mono_witness :
    compute_analysis_confidence 0.5 0.5 4 true < compute_analysis_confidence 0.5 0.5 4 false ∧
    compute_analysis_confidence 0.5 0.5 3 false < compute_analysis_confidence 0.5 0.5 6 false :=
  C8_confidence_strict_mono 0.5 0.5 (by norm_num) (by norm_num) (by norm_num)
    (by norm_num) 4 3 (by norm_num) false

theorem filter_sid_nil {α : Type} (sid : String) (f : α → String) (l : List α) :
    (l.filter (fun r => f r != sid)).filter (fun r => f r == sid) = [] := by
  induction l with
  | nil => rfl
  | cons x xs ih =>
    simp only [List.filter_cons]
    by_cases h : f x = sid
    · simp [h, ih]
    · simp [h, ih]

theorem filter_sid_all {α : Type} (sid : String) (f : α → String) (l : List α)
    (h : ∀ x ∈ l, f x = sid) : l.filter (fun r => f r == sid) = l :=
  List.filter_eq_self.mpr (fun a ha => by simp [h a ha])

/-- C1: after analysis, the persisted per-angle embeddings are exactly the
unweighted means of the per-image embeddings of each angle group, and the
persisted session embedding is the mean of all angle embeddings present. -/
theorem C1_aggregation_means (E : String → List ℝ) (Q : String → ImageQuality)
    (images : List ImageRec) (u sid : String) (db : Store) :
    (((analyze_session E Q images u sid db).2.angle_embeddings.filter
        (fun r => r.session_id == sid)).map (fun r => (r.angle_type, r.embedding))
      = (angleKeys images).map (fun a => (a,
          meanVec ((imagesOf images a).map (fun i =>
            extract_embedding E i.storage_path (load_user_baseline u sid db)))))) ∧
    (((analyze_session E Q images u sid db).2.session_embeddings.filter
        (fun r => r.session_id == sid)).map (fun r => r.embedding)
      = [meanVec ((angleKeys images).map (fun a =>
          meanVec ((imagesOf images a).map (fun i =>
            extract_embedding E i.storage_path (load_user_baseline u sid db)))))]) := by
  constructor
  · simp only [analyze_session, store_session_embedding, store_angle_embeddings]
    rw [List.filter_append, filter_sid_nil,
      filter_sid_all sid _ _ (by intro x hx; simp at hx; obtain ⟨p, hp, hx⟩ := hx; rw [← hx]),
      List.nil_append, List.map_map, List.map_map]
    simp [angleComputations, List.map_map, Function.comp]
  · simp only [analyze_session, store_session_embedding, store_angle_embeddings]
    rw [List.filter_append, filter_sid_nil]
    simp [angleComputations, List.map_map, Function.comp_def, List.filter]

/-- C4: with no stored prior session embeddings or analyses for the user,
`analyze_session` reports a first session: every change score is 0, the
trend score is `none`, the baseline is "none" and no comparison layer is
used. -/
theorem C4_first_session_defaults (E : String → List ℝ) (Q : String → ImageQuality)
    (images : List ImageRec) (u sid : String) (db : Store)
    (h1 : db.session_embeddings.filter
      (fun r => r.user_id == u && r.session_id != sid) = [])
    (h2 : db.session_analysis.filter
      (fun r => r.user_id == u && r.session_id != sid) = []) :
    (analyze_session E Q images u sid db).1.is_first_session = true ∧
    (analyze_session E Q images u sid db).1.overall_change_score = 0 ∧
    (∀ r ∈ (analyze_session E Q images u sid db).1.per_angle, r.change_score = 0) ∧
    (analyze_session E Q images u sid db).1.trend_score = none ∧
    (analyze_session E Q images u sid db).1.baseline_used = "none" ∧
    (analyze_session E Q images u sid db).1.comparison_layers_used = [] := by
  have hb : load_user_baseline u sid db = none := by
    unfold load_user_baseline
    rw [h1]
    rfl
  have ht : ∀ d : Store, d.session_analysis = db.session_analysis →
      load_trend_score u sid 5 d = none := by
    intro d hd
    unfold load_trend_score
    rw [hd, h2]
    rfl
  refine ⟨?_, ?_, ?_, ?_, ?_, ?_⟩
  · simp [analyze_session, hb]
  · simp [analyze_session, hb]
  · simp [analyze_session, angleComputations, hb]
  · simp only [analyze_session, store_session_embedding, store_angle_embeddings]
    exact ht _ rfl
  · simp [analyze_session, hb]
  · simp [analyze_session, hb]

/-- Witness for C4: one front image, a stub extractor and quality scorer,
and an empty store. -/
theorem C4_first_session_defaults_witness :
    (analyze_session (fun _ => [(1 : ℝ)])
      (fun _ => ⟨100, 0.5, false, false, false, 0.9⟩)
      [⟨"front", "p1"⟩] "u1" "s1" ⟨[], [], [], []⟩).1.is_first_session = true ∧
    (analyze_session (fun _ => [(1 : ℝ)])
      (fun _ => ⟨100, 0.5, false, false, false, 0.9⟩)
      [⟨"front", "p1"⟩] "u1" "s1" ⟨[], [], [], []⟩).1.overall_change_score = 0 ∧
    (∀ r ∈ (analyze_session (fun _ => [(1 : ℝ)])
      (fun _ => ⟨100, 0.5, false, false, false, 0.9⟩)
      [⟨"front", "p1"⟩] "u1" "s1" ⟨[], [], [], []⟩).1.per_angle, r.change_score = 0) ∧
    (analyze_session (fun _ => [(1 : ℝ)])
      (fun _ => ⟨100, 0.5, false, false, false, 0.9⟩)
      [⟨"front", "p1"⟩] "u1" "s1" ⟨[], [], [], []⟩).1.trend_score = none ∧
    (analyze_session (fun _ => [(1 : ℝ)])
      (fun _ => ⟨100, 0.5, false, false, false, 0.9⟩)
      [⟨"front", "p1"⟩] "u1" "s1" ⟨[], [], [], []⟩).1.baseline_used = "none" ∧
    (analyze_session (fun _ => [(1 : ℝ)])
      (fun _ => ⟨100, 0.5, false, false, false, 0.9⟩)
      [⟨"front", "p1"⟩] "u1" "s1" ⟨[], [], [], []⟩).1.comparison_layers_used = [] :=
  C4_first_session_defaults _ _ _ _ _ _ rfl rfl

theorem filter_filter_of_imp {α : Type} (p q : α → Bool) (l : List α)
    (h : ∀ a, p a = true → q a = true) : (l.filter q).filter p = l.filter p := by
  induction l with
  | nil => rfl
  | cons x xs ih =>
    simp only [List.filter_cons]
    by_cases hp : p x = true
    · have hq := h x hp
      simp [hp, hq, ih]
    · by_cases hq : q x = true
      · simp [hp, hq, ih]
      · simp [hp, hq, ih]

theorem filter_prior_eq {α : Type} (p q : α → Bool) (l rows : List α)
    (hpq : ∀ a, p a = true → q a = true) (hrows : ∀ x ∈ rows, p x = false) :
    (l.filter q ++ rows).filter p = l.filter p := by
  rw [List.filter_append, filter_filter_of_imp p q l hpq]
  have h0 : rows.filter p = [] :=
    List.filter_eq_nil_iff.mpr
      (fun a ha hp => by rw [hrows a ha] at hp; exact absurd hp (by simp))
  rw [h0, List.append_nil]

theorem run_analysis_tables (E : String → List ℝ) (Q : String → ImageQuality)
    (images : List ImageRec) (u sid : String) (db : Store) :
    run_analysis E Q images u sid db =
    { session_embeddings := db.session_embeddings.filter (fun r => r.session_id != sid)
        ++ [{ session_id := sid, user_id := u,
              embedding := meanVec ((angleComputations E Q images
                (load_user_baseline u sid db)).map (fun c => c.embedding)) }],
      angle_embeddings := db.angle_embeddings.filter (fun r => r.session_id != sid)
        ++ ((angleComputations E Q images (load_user_baseline u sid db)).map
              (fun c => (c.angle_type, c.embedding))).map
            (fun p => { session_id := sid, user_id := u,
                        angle_type := p.1, embedding := p.2 }),
      session_analysis := db.session_analysis.filter (fun r => r.session_id != sid)
        ++ [{ session_id := sid, user_id := u,
              overall_change_score :=
                (analyze_session E Q images u sid db).1.overall_change_score,
              trend_score := (analyze_session E Q images u sid db).1.trend_score,
              analysis_confidence_score :=
                some (analyze_session E Q images u sid db).1.analysis_confidence_score,
              session_quality_score :=
                some (analyze_session E Q images u sid db).1.session_quality_score }],
      angle_analysis := db.angle_analysis.filter (fun r => r.session_id != sid)
        ++ (analyze_session E Q images u sid db).1.per_angle.map (fun item =>
            { session_id := sid, user_id := u, angle_type := item.angle_type,
              change_score := item.change_score, summary := item.summary,
              angle_quality_score := some item.angle_quality_score }) } := by
  rfl

theorem analyze_result_congr (E : String → List ℝ) (Q : String → ImageQuality)
    (images : List ImageRec) (u sid : String) (d1 d2 : Store)
    (hb : load_user_baseline u sid d1 = load_user_baseline u sid d2)
    (htr : d1.session_analysis.filter (fun r => r.user_id == u && r.session_id != sid)
         = d2.session_analysis.filter (fun r => r.user_id == u && r.session_id != sid)) :
    (analyze_session E Q images u sid d1).1 = (analyze_session E Q images u sid d2).1 := by
  have ht : ∀ (e : List ℝ) (rows : List (String × List ℝ)),
      load_trend_score u sid 5
        (store_session_embedding sid u e (store_angle_embeddings sid u rows d1))
      = load_trend_score u sid 5
        (store_session_embedding sid u e (store_angle_embeddings sid u rows d2)) := by
    intro e rows
    unfold load_trend_score store_session_embedding store_angle_embeddings
    dsimp only
    rw [htr]
  simp only [analyze_session]
  rw [hb, ht]

/-- C7: re-running the full analysis (analyze + persist) for the same
session id on the same inputs leaves the store exactly as after one run:
delete-then-insert replace semantics, never append. -/
theorem C7_rerun_idempotent (E : String → List ℝ) (Q : String → ImageQuality)
    (images : List ImageRec) (u sid : String) (db : Store) :
    run_analysis E Q images u sid (run_analysis E Q images u sid db)
      = run_analysis E Q images u sid db := by
  have himp : ∀ r : SessionEmbRow,
      (r.user_id == u && r.session_id != sid) = true → (r.session_id != sid) = true :=
    fun r hr => (Bool.and_eq_true _ _ |>.mp hr).2
  have himpA : ∀ r : SessionAnalysisRow,
      (r.user_id == u && r.session_id != sid) = true → (r.session_id != sid) = true :=
    fun r hr => (Bool.and_eq_true _ _ |>.mp hr).2
  have hbase : load_user_baseline u sid (run_analysis E Q images u sid db)
      = load_user_baseline u sid db := by
    unfold load_user_baseline
    rw [run_analysis_tables]
    dsimp only
    rw [filter_prior_eq _ _ _ _ himp (by intro x hx; simp at hx; subst hx; simp)]
  have htrsa : (run_analysis E Q images u sid db).session_analysis.filter
        (fun r => r.user_id == u && r.session_id != sid)
      = db.session_analysis.filter (fun r => r.user_id == u && r.session_id != sid) := by
    rw [run_analysis_tables]
    dsimp only
    exact filter_prior_eq _ _ _ _ himpA (by intro x hx; simp at hx; subst hx; simp)
  have hres : (analyze_session E Q images u sid (run_analysis E Q images u sid db)).1
      = (analyze_session E Q images u sid db).1 :=
    analyze_result_congr E Q images u sid _ db hbase htrsa
  conv_lhs => rw [run_analysis_tables]
  conv_rhs => rw [run_analysis_tables]
  congr 1
  · rw [hbase]
    congr 1
    rw [run_analysis_tables]
    dsimp only
    exact filter_prior_eq _ _ _ _ (fun a h => h)
      (by intro x hx; simp at hx; subst hx; simp)
  · rw [hbase]
    congr 1
    rw [run_analysis_tables]
    dsimp only
    exact filter_prior_eq _ _ _ _ (fun a h => h)
      (by intro x hx; simp [List.mem_map] at hx; obtain ⟨c, hc, rfl⟩ := hx; simp)
  · rw [hres]
    congr 1
    rw [run_analysis_tables]
    dsimp only
    exact filter_prior_eq _ _ _ _ (fun a h => h)
      (by intro x hx; simp at hx; subst hx; simp)
  · rw [hres]
    congr 1
    rw [run_analysis_tables]
    dsimp only
    exact filter_prior_eq _ _ _ _ (fun a h => h)
      (by intro x hx; simp [List.mem_map] at hx; obtain ⟨c, hc, rfl⟩ := hx; simp)

theorem cosineDistance_neg_one_one : cosineDistance [(-1 : ℝ)] [(1 : ℝ)] = 2 := by
  have hd : dotList [(-1 : ℝ)] [(-1 : ℝ)] = 1 := by simp [dotList]
  have hd2 : dotList [(1 : ℝ)] [(1 : ℝ)] = 1 := by simp [dotList]
  have hd3 : dotList [(-1 : ℝ)] [(1 : ℝ)] = -1 := by simp [dotList]
  have hn1 : vecNorm [(-1 : ℝ)] = 1 := by unfold vecNorm; rw [hd, Real.sqrt_one]
  have hn2 : vecNorm [(1 : ℝ)] = 1 := by unfold vecNorm; rw [hd2, Real.sqrt_one]
  unfold cosineDistance
  rw [if_neg (by rw [hn1, hn2]; norm_num), hd3, hn1, hn2]
  norm_num

theorem mem_dictUpd {α : Type} (d : List (String × α)) (k : String) (v : α)
    (p : String × α) (hp : p ∈ dictUpd d k v) : p ∈ d ∨ p = (k, v) := by
  unfold dictUpd at hp
  split_ifs at hp with h
  · simp only [List.mem_map] at hp
    obtain ⟨q, hq, hqe⟩ := hp
    by_cases hk : (q.1 == k) = true
    · rw [if_pos hk] at hqe
      right
      exact hqe.symm
    · rw [if_neg hk] at hqe
      left
      rw [← hqe]
      exact hq
  · rcases List.mem_append.mp hp with h1 | h1
    · left; exact h1
    · right; simpa using h1

theorem mem_foldl_dictUpd {α : Type} (l : List (String × α)) :
    ∀ (acc : List (String × α)) (p : String × α),
      p ∈ List.foldl (fun d q => dictUpd d q.1 q.2) acc l → p ∈ acc ∨ p ∈ l := by
  induction l with
  | nil => intro acc p hp; left; exact hp
  | cons x xs ih =>
    intro acc p hp
    rw [List.foldl_cons] at hp
    rcases ih _ p hp with h | h
    · rcases mem_dictUpd _ _ _ _ h with h' | h'
      · left; exact h'
      · right
        rw [h']
        simp
    · right
      exact List.mem_cons_of_mem x h

theorem mem_toDict {α : Type} (l : List (String × α)) (p : String × α)
    (hp : p ∈ toDict l) : p ∈ l := by
  rcases mem_foldl_dictUpd l [] p hp with h | h
  · simp at h
  · exact h

theorem dictGet_mem {α : Type} (d : List (String × α)) (k : String) (v : α)
    (h : dictGet d k = some v) : ∃ p ∈ d, p.2 = v := by
  unfold dictGet at h
  cases hf : d.find? (fun p => p.1 == k) with
  | none => rw [hf] at h; simp at h
  | some q =>
    rw [hf] at h
    simp only [Option.map_some'] at h
    exact ⟨q, List.mem_of_find?_eq_some hf, by injection h⟩

theorem avg_mem_unit (l : List ℝ) (h : ∀ x ∈ l, 0 ≤ x ∧ x ≤ 1) :
    0 ≤ (if l.isEmpty then (0:ℝ) else l.sum / (l.length : ℝ)) ∧
    (if l.isEmpty then (0:ℝ) else l.sum / (l.length : ℝ)) ≤ 1 := by
  split_ifs with he
  · norm_num
  · have hne : l ≠ [] := fun hh => he (by simp [hh])
    have hlen : 0 < (l.length : ℝ) := by
      have := List.length_pos.mpr hne
      exact_mod_cast this
    constructor
    · exact div_nonneg (List.sum_nonneg (fun x hx => (h x hx).1)) (le_of_lt hlen)
    · rw [div_le_one hlen]
      calc l.sum ≤ l.length • (1:ℝ) := List.sum_le_card_nsmul l 1 (fun x hx => (h x hx).2)
        _ = (l.length : ℝ) := by simp

theorem clamp01_mem (x : ℝ) : 0 ≤ max 0 (min 1 x) ∧ max 0 (min 1 x) ≤ 1 :=
  ⟨le_max_left _ _, max_le (by norm_num) (min_le_left _ _)⟩

theorem min_one_cosine_mem (a b : List ℝ) :
    0 ≤ min 1 (cosineDistance a b) ∧ min 1 (cosineDistance a b) ≤ 1 :=
  ⟨le_min (by norm_num) (cosineDistance_nonneg a b), min_le_left _ _⟩

theorem load_angle_scores_mem (sid : String) (db2 : Store) (p : String × ℝ)
    (hp : p ∈ load_angle_scores sid db2)
    (hdb2 : ∀ r ∈ db2.angle_analysis, 0 ≤ r.change_score ∧ r.change_score ≤ 1) :
    0 ≤ p.2 ∧ p.2 ≤ 1 := by
  unfold load_angle_scores at hp
  have hmem := mem_toDict _ _ hp
  simp only [List.mem_map] at hmem
  obtain ⟨r, hr, hre⟩ := hmem
  have hr2 := hdb2 r (List.mem_of_mem_filter hr)
  rw [← hre]
  exact hr2

theorem dictGet_angle_scores_bounds (sid : String) (db2 : Store) (k : String) (v : ℝ)
    (h : dictGet (load_angle_scores sid db2) k = some v)
    (hdb2 : ∀ r ∈ db2.angle_analysis, 0 ≤ r.change_score ∧ r.change_score ≤ 1) :
    0 ≤ v ∧ v ≤ 1 := by
  obtain ⟨p, hp, hpv⟩ := dictGet_mem _ _ _ h
  rw [← hpv]
  exact load_angle_scores_mem sid db2 p hp hdb2

/-- C2 amended: the analysis-path change scores (per angle and overall) lie
in [0,1]; in cross-session comparison only the stability index is clamped
to [0,1], while the immediate/overall, rolling, monthly and lifetime deltas
are unclamped cosine distances bounded by [0,2] (given stored angle scores
in [0,1] for the score-fallback path). -/
theorem C2_scores_ranges (E : String → List ℝ) (Q : String → ImageQuality)
    (images : List ImageRec) (u sid : String) (db : Store)
    (csid psid uid : String) (inW : SessionEmbRow → Bool) (db2 : Store)
    (hdb2 : ∀ r ∈ db2.angle_analysis, 0 ≤ r.change_score ∧ r.change_score ≤ 1) :
    (∀ r ∈ (analyze_session E Q images u sid db).1.per_angle,
      0 ≤ r.change_score ∧ r.change_score ≤ 1) ∧
    (0 ≤ (analyze_session E Q images u sid db).1.overall_change_score ∧
      (analyze_session E Q images u sid db).1.overall_change_score ≤ 1) ∧
    (∀ res, compare_sessions csid psid uid inW db2 = some res →
      (0 ≤ res.overall_delta ∧ res.overall_delta ≤ 2) ∧
      (0 ≤ res.stability_index ∧ res.stability_index ≤ 1) ∧
      (∀ d, res.rolling_baseline.delta = some d → 0 ≤ d ∧ d ≤ 2) ∧
      (∀ d, res.monthly_baseline.delta = some d → 0 ≤ d ∧ d ≤ 2) ∧
      (∀ d, res.lifetime_baseline.delta = some d → 0 ≤ d ∧ d ≤ 2)) := by
  refine ⟨?_, ?_, ?_⟩
  · intro r hr
    rcases hbl : load_user_baseline u sid db with _ | m
    · simp only [analyze_session, angleComputations, hbl, List.map_map,
        List.mem_map, Function.comp_def] at hr
      obtain ⟨a, ha, rfl⟩ := hr
      norm_num
    · simp only [analyze_session, angleComputations, hbl, List.map_map,
        List.mem_map, Function.comp_def] at hr
      obtain ⟨a, ha, rfl⟩ := hr
      exact min_one_cosine_mem _ _
  · rcases hbl : load_user_baseline u sid db with _ | m <;>
      simp only [analyze_session, hbl]
    · norm_num
    · exact min_one_cosine_mem _ _
  · intro res hres
    simp only [compare_sessions] at hres
    by_cases hemp : ((load_angle_scores csid db2).isEmpty ||
        (load_angle_scores psid db2).isEmpty) = true
    · rw [if_pos hemp] at hres
      exact absurd hres (by simp)
    · rw [if_neg hemp] at hres
      rw [Option.some.injEq] at hres
      subst hres
      refine ⟨?_, clamp01_mem _, ?_, ?_, ?_⟩
      · rcases hce : load_session_embedding csid db2 with _ | c <;>
          rcases hpe : load_session_embedding psid db2 with _ | p <;>
          simp only [hce, hpe, Option.isSome_some, Option.isSome_none,
            Bool.and_true, Bool.and_false, Bool.false_and, Bool.true_and,
            if_true, if_false, Bool.false_eq_true, ite_true, ite_false] <;>
          first
            | exact ⟨cosineDistance_nonneg c p, cosineDistance_le_two c p⟩
            | (constructor
               · refine (avg_mem_unit _ ?_).1
                 intro x hx
                 simp only [List.mem_map] at hx
                 obtain ⟨pa, hpa, rfl⟩ := hx
                 simp only [List.mem_filterMap] at hpa
                 obtain ⟨q, hq, hf⟩ := hpa
                 rcases hgp : dictGet (load_angle_scores psid db2) q.1 with _ | ps
                 · rw [hgp] at hf; exact absurd hf (by simp)
                 · rw [hgp] at hf
                   rw [Option.some.injEq] at hf
                   subst hf
                   have h1 := load_angle_scores_mem csid db2 q hq hdb2
                   have h2 := dictGet_angle_scores_bounds psid db2 q.1 ps hgp hdb2
                   refine ⟨abs_nonneg _, ?_⟩
                   rw [abs_le]
                   constructor <;> linarith
               · refine le_trans (avg_mem_unit _ ?_).2 one_le_two
                 intro x hx
                 simp only [List.mem_map] at hx
                 obtain ⟨pa, hpa, rfl⟩ := hx
                 simp only [List.mem_filterMap] at hpa
                 obtain ⟨q, hq, hf⟩ := hpa
                 rcases hgp : dictGet (load_angle_scores psid db2) q.1 with _ | ps
                 · rw [hgp] at hf; exact absurd hf (by simp)
                 · rw [hgp] at hf
                   rw [Option.some.injEq] at hf
                   subst hf
                   have h1 := load_angle_scores_mem csid db2 q hq hdb2
                   have h2 := dictGet_angle_scores_bounds psid db2 q.1 ps hgp hdb2
                   refine ⟨abs_nonneg _, ?_⟩
                   rw [abs_le]
                   constructor <;> linarith)
      · rcases hce : load_session_embedding csid db2 with _ | c <;>
          simp only [hce]
        · intro d hd; exact absurd hd (by simp)
        · rcases hrb : load_rolling_baseline uid csid 5 db2 with _ | rb <;>
            simp only [hrb]
          · intro d hd; exact absurd hd (by simp)
          · intro d hd
            rw [Option.some.injEq] at hd
            subst hd
            exact ⟨cosineDistance_nonneg c rb, cosineDistance_le_two c rb⟩
      · rcases hce : load_session_embedding csid db2 with _ | c <;>
          simp only [hce]
        · intro d hd; exact absurd hd (by simp)
        · rcases hmb : load_monthly_baseline uid csid inW db2 with _ | mb <;>
            simp only [hmb]
          · intro d hd; exact absurd hd (by simp)
          · intro d hd
            rw [Option.some.injEq] at hd
            subst hd
            exact ⟨cosineDistance_nonneg c mb, cosineDistance_le_two c mb⟩
      · rcases hce : load_session_embedding csid db2 with _ | c <;>
          simp only [hce]
        · intro d hd; exact absurd hd (by simp)
        · rcases hlb : load_lifetime_baseline uid csid db2 with _ | lb <;>
            simp only [hlb]
          · intro d hd; exact absurd hd (by simp)
          · intro d hd
            rw [Option.some.injEq] at hd
            subst hd
            exact ⟨cosineDistance_nonneg c lb, cosineDistance_le_two c lb⟩

/-- C2 counterexample: on a store with opposite session embeddings [1] and
[-1], the comparison's overall delta is 2, outside [0,1] — comparison
deltas are not clamped. -/
theorem C2_counterexample_delta_exceeds_one :
    Option.map (fun r => r.overall_delta)
      (compare_sessions "s2" "s1" "u1" (fun _ => true) exStore) = some 2 ∧
    ¬((2:ℝ) ≤ 1) := by
  constructor
  · simp only [compare_sessions, exStore, load_angle_scores, load_session_embedding,
      load_angle_embs, toDict, dictUpd, dictGet, List.filter, List.foldl, List.map,
      List.head?, List.any, List.isEmpty, Option.map, Option.isSome, String.reduceBEq]
    norm_num [cosineDistance_neg_one_one]
  · norm_num

/-- C3 amended: every comparison delta is labelled by the comparison
service's own three-label classifier `_trend_label` (breakpoints 0.10 and
0.25), whose vocabulary is stable / mild_variation / significant_shift —
not by the five-label `variation_level` used on analysis change scores. -/
theorem C3_trend_labeling (csid psid uid : String) (inW : SessionEmbRow → Bool)
    (db : Store) :
    Option.map (fun r => r.overall_trend) (compare_sessions csid psid uid inW db)
      = Option.map (fun r => trend_label r.overall_delta)
          (compare_sessions csid psid uid inW db) ∧
    Option.map (fun r => r.rolling_baseline.trend) (compare_sessions csid psid uid inW db)
      = Option.map (fun r => Option.map trend_label r.rolling_baseline.delta)
          (compare_sessions csid psid uid inW db) ∧
    Option.map (fun r => r.monthly_baseline.trend) (compare_sessions csid psid uid inW db)
      = Option.map (fun r => Option.map trend_label r.monthly_baseline.delta)
          (compare_sessions csid psid uid inW db) ∧
    Option.map (fun r => r.lifetime_baseline.trend) (compare_sessions csid psid uid inW db)
      = Option.map (fun r => Option.map trend_label r.lifetime_baseline.delta)
          (compare_sessions csid psid uid inW db) ∧
    (∀ x : ℝ, trend_label x = "stable" ∨ trend_label x = "mild_variation" ∨
      trend_label x = "significant_shift") := by
  refine ⟨?_, ?_, ?_, ?_, ?_⟩
  · unfold compare_sessions
    by_cases hemp : ((load_angle_scores csid db).isEmpty ||
        (load_angle_scores psid db).isEmpty) = true
    · rw [if_pos hemp]
      rfl
    · rw [if_neg hemp]
      rfl
  · unfold compare_sessions
    by_cases hemp : ((load_angle_scores csid db).isEmpty ||
        (load_angle_scores psid db).isEmpty) = true
    · rw [if_pos hemp]
      rfl
    · rw [if_neg hemp]
      rfl
  · unfold compare_sessions
    by_cases hemp : ((load_angle_scores csid db).isEmpty ||
        (load_angle_scores psid db).isEmpty) = true
    · rw [if_pos hemp]
      rfl
    · rw [if_neg hemp]
      rfl
  · unfold compare_sessions
    by_cases hemp : ((load_angle_scores csid db).isEmpty ||
        (load_angle_scores psid db).isEmpty) = true
    · rw [if_pos hemp]
      rfl
    · rw [if_neg hemp]
      rfl
  · intro x
    unfold trend_label
    split_ifs <;> simp

/-- C3 counterexample: at the same concrete store the comparison labels the
overall delta "significant_shift" while the five-label variation classifier
labels that very delta "Strong Variation" — the two paths do not share one
classifier. -/
theorem C3_counterexample_label_mismatch :
    Option.map (fun r => r.overall_trend)
      (compare_sessions "s2" "s1" "u1" (fun _ => true) exStore)
      = some "significant_shift" ∧
    Option.map (fun r => variation_level r.overall_delta)
      (compare_sessions "s2" "s1" "u1" (fun _ => true) exStore)
      = some "Strong Variation" ∧
    ("significant_shift" : String) ≠ "Strong Variation" := by
  refine ⟨?_, ?_, by decide⟩
  · simp only [compare_sessions, exStore, load_angle_scores, load_session_embedding,
      load_angle_embs, toDict, dictUpd, dictGet, List.filter, List.foldl, List.map,
      List.head?, List.any, List.isEmpty, Option.map, Option.isSome, String.reduceBEq]
    norm_num [cosineDistance_neg_one_one, trend_label]
  · simp only [compare_sessions, exStore, load_angle_scores, load_session_embedding,
      load_angle_embs, toDict, dictUpd, dictGet, List.filter, List.foldl, List.map,
      List.head?, List.any, List.isEmpty, Option.map, Option.isSome, String.reduceBEq]
    norm_num [cosineDistance_neg_one_one, variation_level]

/-- Witness for the amended C2 at a stub analysis run and the concrete
two-session comparison store. -/
theorem C2_scores_ranges_witness :
    (∀ r ∈ (analyze_session (fun _ => [(1 : ℝ)])
        (fun _ => ⟨100, 0.5, false, false, false, 0.9⟩)
        [⟨"front", "p1"⟩] "u1" "s1" ⟨[], [], [], []⟩).1.per_angle,
      0 ≤ r.change_score ∧ r.change_score ≤ 1) ∧
    (0 ≤ (analyze_session (fun _ => [(1 : ℝ)])
        (fun _ => ⟨100, 0.5, false, false, false, 0.9⟩)
        [⟨"front", "p1"⟩] "u1" "s1" ⟨[], [], [], []⟩).1.overall_change_score ∧
      (analyze_session (fun _ => [(1 : ℝ)])
        (fun _ => ⟨100, 0.5, false, false, false, 0.9⟩)
        [⟨"front", "p1"⟩] "u1" "s1" ⟨[], [], [], []⟩).1.overall_change_score ≤ 1) ∧
    (∀ res, compare_sessions "s2" "s1" "u1" (fun _ => true) exStore = some res →
      (0 ≤ res.overall_delta ∧ res.overall_delta ≤ 2) ∧
      (0 ≤ res.stability_index ∧ res.stability_index ≤ 1) ∧
      (∀ d, res.rolling_baseline.delta = some d → 0 ≤ d ∧ d ≤ 2) ∧
      (∀ d, res.monthly_baseline.delta = some d → 0 ≤ d ∧ d ≤ 2) ∧
      (∀ d, res.lifetime_baseline.delta = some d → 0 ≤ d ∧ d ≤ 2)) :=
  C2_scores_ranges _ _ _ _ _ _ _ _ _ _ _
    (by
      intro r hr
      simp only [exStore, List.mem_cons, List.not_mem_nil, or_false] at hr
      rcases hr with h | h <;> subst h <;> norm_num)
